import Mathlib

/-!
Verification of `graphdocgen.py`: a single-pass, character-driven parser for a
restricted GraphQL SDL grammar together with a Markdown renderer and document
assembler.  Python strings are modelled as Lean `String`; Python `dict`s
(insertion-ordered, unique keys) as association lists with in-place update;
Python `set`s as duplicate-free lists used only for membership; fallible code
(exceptions: `AssertionError`, `ValueError`, `KeyError`, `AttributeError`)
returns `Except String`.
-/

/-- Built-in scalar names: `SCALARS = {"Int", "Float", "String", "Boolean", "ID"}`
(a Python set; only membership is ever used, so a list is a faithful model). -/
def SCALARS : List String := ["Int", "Float", "String", "Boolean", "ID"]

/-- Python dict lookup `m[k]` (as an `Option`): the value at the first
occurrence of the key. -/
def dictGet {β : Type} : List (String × β) → String → Option β
  | [], _ => none
  | p :: ps, k => if p.1 = k then some p.2 else dictGet ps k

/-- Python dict assignment `m[k] = v`: replace the value at an existing key in
place (keeping its position), otherwise append a new binding at the end. -/
def dictSet {β : Type} : List (String × β) → String → β → List (String × β)
  | [], k, v => [(k, v)]
  | p :: ps, k, v => if p.1 = k then (k, v) :: ps else p :: dictSet ps k v

/-- Removal of a key from a dict.  On the unique-key lists produced by
`dictSet` this is exactly Python `del m[k]` / the removal half of `m.pop(k)`. -/
def dictRemove {β : Type} (m : List (String × β)) (k : String) : List (String × β) :=
  m.filter (fun p => p.1 != k)

/-- Python `m.pop(k)`: the value at `k` and the dict without `k`, or `none`
(modelling `KeyError`) when `k` is absent. -/
def dictPop {β : Type} (m : List (String × β)) (k : String) : Option (β × List (String × β)) :=
  match dictGet m k with
  | none => none
  | some v => some (v, dictRemove m k)

/-- Python `set.add`: deterministic model that appends a new element at the
end when absent (only membership in the set is ever observed). -/
def setAdd (l : List String) (x : String) : List String :=
  if l.contains x then l else l ++ [x]

/-- One schema record (`class GraphQLSchema`): declared name, declaration kind
(`self.type`, here `schema_type` since `type` is reserved in Lean), and the
ordered field map `fields : Dict[str, str]`. -/
structure GraphQLSchema where
  name : String
  schema_type : String
  fields : List (String × String)
deriving DecidableEq, Repr

/-- The method `GraphQLSchema.add_field(name, dtype)`: `self.fields[name] = dtype`. -/
def addField (g : GraphQLSchema) (n dtype : String) : GraphQLSchema :=
  { g with fields := dictSet g.fields n dtype }

/-- Python `s.replace(c, "")` for a single-character pattern: removes every
occurrence of the character from the string. -/
def removeAll (s : String) (c : Char) : String :=
  String.mk (s.data.filter (fun a => a != c))

/-- The stripping done by `GraphQLSchema.get_type_id`:
`dtype.replace("!", "").replace("[", "").replace("]", "")`. -/
def getTypeId (dtype : String) : String :=
  removeAll (removeAll (removeAll dtype '!') '[') ']'

/-- The mutable state of `class GraphQLSchemaParser` (its `__init__` fields). -/
structure ParserState where
  schemas : List (String × GraphQLSchema)
  scalars : List String
  current_schema : Option GraphQLSchema
  state : String
  current_type : String
  field_state : String
  current_token : String
  current_field : String
  comment : Bool
  long_comment : Bool
  bracket_level : Int
deriving DecidableEq, Repr

/-- The fresh parser state built by `GraphQLSchemaParser.__init__`. -/
def initState : ParserState :=
  { schemas := []
    scalars := SCALARS
    current_schema := none
    state := "none"
    current_type := ""
    field_state := "field"
    current_token := ""
    current_field := ""
    comment := false
    long_comment := false
    bracket_level := 0 }

/-- The delimiter set of `read_character`: `(" ", "{", ":", "}", "\n", "=")`. -/
def delims : List Char := [' ', '{', ':', '}', '\n', '=']

/-- Lines 68-72 of `read_character`: a newline clears line-comment mode, a `#`
enters it. -/
def applyCommentFlags (s : ParserState) (c : Char) : ParserState :=
  if c = '\n' then { s with comment := false }
  else if c = '#' then { s with comment := true }
  else s

/-- Lines 78-86 of `read_character`: append the character to the current
token, maintain the parenthesis depth, and toggle block-comment mode when the
token buffer is exactly the `"""` sentinel (resetting the buffer). -/
def accumulate (s : ParserState) (c : Char) : ParserState :=
  let s2 := { s with current_token := s.current_token.push c }
  let s3 :=
    if c = '(' then { s2 with bracket_level := s2.bracket_level + 1 }
    else if c = ')' then { s2 with bracket_level := s2.bracket_level - 1 }
    else s2
  if s3.current_token = "\"\"\"" then
    { s3 with long_comment := !s3.long_comment, current_token := "" }
  else s3

/-- The declaration keywords accepted in state `none`. -/
def keywords : List String := ["type", "input", "enum", "scalar"]

/-- Lines 92-149 of `read_character`: the token dispatch (the 3-state machine),
reached only for a delimiter character at bracket depth 0 outside comments.
Python `assert` failures become `.error "AssertionError"`, the explicit
`raise ValueError` becomes `.error ("Unexpected token: " ++ token)`, and
`None.add_field` becomes `.error "AttributeError"`. -/
def dispatch (s : ParserState) (c : Char) : Except String ParserState :=
  if s.state = "none" then
    if c = ' ' ∨ c = '\n' then
      if s.current_token = "" then .ok s
      else if keywords.contains s.current_token then
        .ok { s with
                state := "name"
                current_type := s.current_token
                current_schema := some { name := "", schema_type := s.current_token, fields := [] } }
      else .error ("Unexpected token: " ++ s.current_token)
    else .error "AssertionError"
  else if s.state = "name" then
    if c = ' ' ∨ c = '\n' ∨ c = '{' then
      match s.current_schema with
      | none => .error "AssertionError"
      | some g =>
        if s.current_type = "scalar" then
          .ok { s with
                  state := "none"
                  current_type := ""
                  scalars := setAdd s.scalars s.current_token
                  schemas := dictSet s.schemas s.current_token { g with name := s.current_token }
                  current_schema := some { g with name := s.current_token } }
        else
          .ok { s with
                  state := "fields"
                  field_state := "field"
                  current_schema := some { g with name := s.current_token } }
    else .error "AssertionError"
  else if s.state = "fields" then
    if c = ':' ∨ c = '{' ∨ c = '}' ∨ c = '\n' ∨ c = ' ' ∨ c = '=' then
      if s.current_type = "" then .error "AssertionError"
      else if c = '}' then
        match s.current_schema with
        | none => .error "AssertionError"
        | some g =>
          .ok { s with
                  schemas := dictSet s.schemas g.name g
                  current_schema := none
                  state := "none"
                  current_type := ""
                  field_state := "field" }
      else if c = '=' then .ok { s with comment := true }
      else if s.current_token = "" then .ok s
      else if c = '{' then .error "AssertionError"
      else if s.field_state = "field" then
        if s.current_type = "enum" then
          if c = ' ' ∨ c = '\n' then
            match s.current_schema with
            | none => .error "AttributeError"
            | some g => .ok { s with current_schema := some (addField g s.current_token "") }
          else .error "AssertionError"
        else
          .ok { s with current_field := s.current_token, field_state := "dtype" }
      else if s.field_state = "dtype" ∧ (c = '\n' ∨ c = ' ') then
        if s.current_field = "" then .error "AssertionError"
        else
          match s.current_schema with
          | none => .error "AttributeError"
          | some g =>
            .ok { s with
                    current_schema := some (addField g s.current_field s.current_token)
                    current_field := ""
                    field_state := "field" }
      else .ok s
    else .error "AssertionError"
  else .ok s

/-- The method `GraphQLSchemaParser.read_character`: comment handling, token
accumulation, and (at a delimiter outside comments) token dispatch followed by
clearing the token buffer. -/
def readCharacter (s0 : ParserState) (c : Char) : Except String ParserState :=
  if (applyCommentFlags s0 c).comment then .ok (applyCommentFlags s0 c)
  else if (applyCommentFlags s0 c).bracket_level > 0 ∨ ¬ delims.contains c then
    .ok (accumulate (applyCommentFlags s0 c) c)
  else if (applyCommentFlags s0 c).long_comment then
    .ok { applyCommentFlags s0 c with current_token := "" }
  else (dispatch (applyCommentFlags s0 c) c).map (fun t => { t with current_token := "" })

/-- Feeding a character sequence to the parser, aborting at the first raised
exception. -/
def run : ParserState → List Char → Except String ParserState
  | s, [] => .ok s
  | s, c :: cs =>
    match readCharacter s c with
    | .ok s2 => run s2 cs
    | .error e => .error e

/-- Python text-file line iteration: split after each newline, keeping the
newline with its line; no empty final line when the text ends in a newline. -/
def pyLinesAux : List Char → List Char → List (List Char)
  | acc, [] => if acc.isEmpty then [] else [acc.reverse]
  | acc, c :: cs =>
    if c = '\n' then (acc.reverse ++ ['\n']) :: pyLinesAux [] cs
    else pyLinesAux (c :: acc) cs

/-- The character sequence `convert_schema` feeds to the parser: each line of
the file followed by one extra forced newline (`schema.read_character("\n")`). -/
def convertChars (text : String) : List Char :=
  ((pyLinesAux [] text.data).map (fun l => l ++ ['\n'])).flatten

/-- Parsing phase of `convert_schema`. -/
def parseDocument (text : String) : Except String ParserState :=
  run initState (convertChars text)

/-- Python `str.capitalize()`: first character upper-cased, the rest
lower-cased. -/
def pyCapitalize (s : String) : String :=
  match s.data with
  | [] => ""
  | c :: cs => String.mk (c.toUpper :: cs.map Char.toLower)

/-- Python `sep.join(parts)`. -/
def pyJoin (sep : String) : List String → String
  | [] => ""
  | [x] => x
  | x :: xs => x ++ sep ++ pyJoin sep xs

/-- Python `s.lower()` (ASCII lower-casing). -/
def pyLower (s : String) : String := String.mk (s.data.map Char.toLower)

/-- Worker for Python `s.split(sep)` with a non-empty separator: scan left to
right, cutting at each (non-overlapping, leftmost) occurrence of the
separator.  The fuel argument (the length of the remaining input at the first
call) only makes the recursion structural. -/
def pySplitAux (sep : List Char) : Nat → List Char → List Char → List (List Char)
  | _, acc, [] => [acc.reverse]
  | 0, acc, rest => [acc.reverse ++ rest]
  | fuel + 1, acc, c :: cs =>
    if sep.isPrefixOf (c :: cs) then
      acc.reverse :: pySplitAux sep fuel [] ((c :: cs).drop sep.length)
    else pySplitAux sep fuel (c :: acc) cs

/-- Python `s.split(sep)` for a non-empty separator. -/
def pySplit (s sep : String) : List String :=
  (pySplitAux sep.data s.data.length [] s.data).map String.mk

/-- The function `table_to_markdown(headers, rows, column_alignments)`:
a header row, an alignment row (defaulting to `---` per column), and one
line per table row, all pipe-separated. -/
def tableToMarkdown (headers : List String) (rows : List (List String))
    (column_alignments : Option (List String)) : String :=
  "| " ++ pyJoin " | " headers ++ " |\n" ++
  "| " ++ pyJoin " | "
    (match column_alignments with
     | some a => a
     | none => headers.map (fun _ => "---")) ++ " |\n" ++
  pyJoin "\n" (rows.map (fun row => "| " ++ pyJoin " | " row ++ " |"))

/-- The backtick character (written via a one-character string). -/
def backtickChars : List Char := "`".data

/-- Python `s.lstrip` of backticks: drop every leading backtick. -/
def lstripBackticks (s : String) : String :=
  String.mk (s.data.dropWhile (fun a => backtickChars.contains a))

/-- Python `s.rstrip` of backticks: drop every trailing backtick. -/
def rstripBackticks (s : String) : String :=
  String.mk ((s.data.reverse.dropWhile (fun a => backtickChars.contains a)).reverse)

/-- Lines 38-43 of `GraphQLSchema.to_markdown`: the rendering of one raw type
expression.  A bare identifier in the scalar set is kept verbatim in
fixed-width styling; otherwise every occurrence of the identifier is replaced
by an anchor link (via `split`/`join`), with surrounding punctuation kept in
fixed-width spans.  Python `str.split` with an empty separator raises
`ValueError`, modelled as `.error`. -/
def dtypeMd (dtype : String) (scalars : List String) : Except String String :=
  let type_id := getTypeId dtype
  if scalars.contains type_id then .ok ("`" ++ dtype ++ "`")
  else if type_id = "" then .error "ValueError: empty separator"
  else
    let link := "`[<ins>`" ++ type_id ++ "`</ins>](#" ++ pyLower type_id ++ ")`"
    let md0 := pyJoin link (pySplit dtype type_id)
    let md1 := if type_id.data.isPrefixOf dtype.data then lstripBackticks md0 else "`" ++ md0
    let md2 := if type_id.data.isSuffixOf dtype.data then rstripBackticks md1 else md1 ++ "`"
    .ok md2

/-- The method `GraphQLSchema.to_markdown(title_prefix, scalars)` (the
parameter `title_prefix` is called `tpre` here): a heading, a datatype-class
note, and (for compound kinds) a Markdown table of values or fields. -/
def schemaToMarkdown (g : GraphQLSchema) (tpre : String) (scalars : List String) :
    Except String String :=
  if g.schema_type = "scalar" then
    .ok (tpre ++ " " ++ g.name ++ "\n\nDatatype class: *" ++ g.schema_type ++ "*")
  else if g.schema_type = "enum" then
    .ok (tpre ++ " " ++ g.name ++ "\n\nDatatype class: *" ++ pyCapitalize g.schema_type ++
      "*\n\n" ++
      tableToMarkdown ["Values"] (g.fields.map (fun p => ["**`" ++ p.1 ++ "`**"])) (some [":-:"]))
  else
    (g.fields.mapM (fun p =>
        (dtypeMd p.2 scalars).map (fun md => ["**`" ++ p.1 ++ "`:** " ++ md, "-"]))).map
      (fun table =>
        tpre ++ " " ++ g.name ++ "\n\nDatatype class: *" ++ pyCapitalize g.schema_type ++
        "*\n\n" ++ tableToMarkdown ["Field", "Description"] table none)

/-- The method `GraphQLSchemaParser.to_markdown` (the Document Assembler).
Python evaluates the join list left to right: the `Query` record is popped
(`KeyError` when absent) and rendered with the DEFAULT built-in scalar set;
then, because `int("Mutation" in self.schemas) * [self.schemas.pop("Mutation")
.to_markdown()]` evaluates the bracketed list eagerly, `Mutation` is popped
unconditionally (`KeyError` when absent) and rendered with the default scalar
set; finally every remaining record is rendered with the accumulated
`self.scalars`.  Returns the joined text and the mutated parser state. -/
def parserToMarkdown (s : ParserState) : Except String (String × ParserState) :=
  match dictPop s.schemas "Query" with
  | none => .error "KeyError: Query"
  | some (q, rest1) =>
    match schemaToMarkdown q "##" SCALARS with
    | .error e => .error e
    | .ok qmd =>
      match dictPop rest1 "Mutation" with
      | none => .error "KeyError: Mutation"
      | some (m, rest2) =>
        match schemaToMarkdown m "##" SCALARS with
        | .error e => .error e
        | .ok mmd =>
          match (rest2.map (fun p => p.2)).mapM (fun g => schemaToMarkdown g "##" s.scalars) with
          | .error e => .error e
          | .ok mds =>
            .ok (pyJoin "\n\n"
                  (["# Entrypoint Data Types", qmd, mmd, "# Custom Data Types"] ++ mds),
                 { s with schemas := rest2 })

/-- The function `convert_schema`: parse the document character by character,
then assemble the Markdown. -/
def convertSchema (text : String) : Except String String :=
  (parseDocument text).bind (fun s => (parserToMarkdown s).map (fun p => p.1))

/-! ### Association-list (Python dict) lemmas -/

theorem dictGet_dictSet {β : Type} (m : List (String × β)) (k n : String) (v : β) :
    dictGet (dictSet m k v) n = if n = k then some v else dictGet m n := by
  induction m with
  | nil =>
    by_cases h : n = k
    · subst h; simp [dictGet, dictSet]
    · simp [dictGet, dictSet, h, Ne.symm h]
  | cons p ps ih =>
    by_cases hpk : p.1 = k
    · by_cases hnk : n = k
      · subst hnk; simp [dictSet, dictGet, hpk]
      · have hkn : ¬ k = n := fun h2 => hnk h2.symm
        have hpn : ¬ p.1 = n := fun h2 => hnk (by rw [hpk] at h2; exact h2.symm)
        simp [dictSet, dictGet, hpk, hkn, hpn, hnk]
    · by_cases hpn : p.1 = n
      · have hnk : ¬ n = k := fun h => hpk (by rw [hpn, h])
        simp [dictSet, dictGet, hpk, hpn, hnk]
      · simp [dictSet, dictGet, hpk, hpn, ih]

theorem mem_dictSet {β : Type} (m : List (String × β)) (k : String) (v : β)
    (p : String × β) (hp : p ∈ dictSet m k v) : p = (k, v) ∨ p ∈ m := by
  induction m with
  | nil => simp [dictSet] at hp; exact Or.inl hp
  | cons q qs ih =>
    by_cases hqk : q.1 = k
    · simp [dictSet, hqk] at hp
      rcases hp with hp | hp
      · exact Or.inl hp
      · exact Or.inr (List.mem_cons_of_mem _ hp)
    · simp [dictSet, hqk] at hp
      rcases hp with hp | hp
      · exact Or.inr (by simp [hp])
      · rcases ih hp with h | h
        · exact Or.inl h
        · exact Or.inr (List.mem_cons_of_mem _ h)

theorem keys_dictSet {β : Type} (m : List (String × β)) (k : String) (v : β) :
    (dictSet m k v).map Prod.fst = m.map Prod.fst ∨
      (dictSet m k v).map Prod.fst = m.map Prod.fst ++ [k] ∧ ¬ k ∈ m.map Prod.fst := by
  induction m with
  | nil => simp [dictSet]
  | cons q qs ih =>
    by_cases hqk : q.1 = k
    · left; simp [dictSet, hqk]
    · rcases ih with ih | ⟨ih1, ih2⟩
      · left; simp [dictSet, hqk, ih]
      · right
        constructor
        · simp [dictSet, hqk, ih1]
        · simp only [List.map_cons, List.mem_cons]
          rintro (h | h)
          · exact hqk h.symm
          · exact ih2 h

theorem nodup_keys_dictSet {β : Type} (m : List (String × β)) (k : String) (v : β)
    (h : (m.map Prod.fst).Nodup) : ((dictSet m k v).map Prod.fst).Nodup := by
  rcases keys_dictSet m k v with heq | ⟨heq, hmem⟩
  · rw [heq]; exact h
  · rw [heq]
    refine h.append (List.nodup_singleton k) ?_
    intro a ha hk
    rw [List.mem_singleton] at hk
    exact hmem (hk ▸ ha)

theorem dictGet_eq_none_iff {β : Type} (m : List (String × β)) (k : String) :
    dictGet m k = none ↔ ∀ p ∈ m, p.1 ≠ k := by
  induction m with
  | nil => simp [dictGet]
  | cons q qs ih =>
    by_cases hqk : q.1 = k <;> simp [dictGet, hqk, ih]

theorem dictGet_dictRemove_self {β : Type} (m : List (String × β)) (k : String) :
    dictGet (dictRemove m k) k = none := by
  rw [dictGet_eq_none_iff]
  intro p hp
  have := List.of_mem_filter hp
  simpa using this

theorem dictGet_dictRemove_none {β : Type} (m : List (String × β)) (k j : String)
    (h : dictGet m k = none) : dictGet (dictRemove m j) k = none := by
  rw [dictGet_eq_none_iff] at h ⊢
  intro p hp
  exact h p (List.mem_of_mem_filter hp)

theorem mem_setAdd_of_mem (l : List String) (x y : String) (h : x ∈ l) :
    x ∈ setAdd l y := by
  unfold setAdd
  split
  · exact h
  · exact List.mem_append_left _ h

theorem self_mem_setAdd (l : List String) (x : String) : x ∈ setAdd l x := by
  unfold setAdd
  split
  · next h => simpa using h
  · exact List.mem_append_right _ (List.mem_singleton.mpr rfl)

/-! ### Identifier stripping (`get_type_id`) -/

theorem removeAll_data (l : List Char) (c : Char) :
    removeAll (String.mk l) c = String.mk (l.filter (fun a => a != c)) := rfl

theorem getTypeId_data (l : List Char) :
    getTypeId (String.mk l) =
      String.mk (((l.filter (fun a => a != '!')).filter (fun a => a != '[')).filter
        (fun a => a != ']')) := rfl

theorem filter_markers_nil (l : List Char) (h : ∀ c ∈ l, c = '!' ∨ c = '[' ∨ c = ']') :
    ((l.filter (fun a => a != '!')).filter (fun a => a != '[')).filter (fun a => a != ']') = [] := by
  induction l with
  | nil => rfl
  | cons c cs ih =>
    have hc := h c (List.mem_cons_self _ _)
    have hcs := ih (fun x hx => h x (List.mem_cons_of_mem _ hx))
    rcases hc with h1 | h1 | h1 <;> subst h1 <;> simpa using hcs

theorem filter_markers_id (l : List Char) (h : ∀ c ∈ l, ¬ (c = '!' ∨ c = '[' ∨ c = ']')) :
    ((l.filter (fun a => a != '!')).filter (fun a => a != '[')).filter (fun a => a != ']') = l := by
  induction l with
  | nil => rfl
  | cons c cs ih =>
    have hc := h c (List.mem_cons_self _ _)
    have hcs := ih (fun x hx => h x (List.mem_cons_of_mem _ hx))
    push_neg at hc
    rw [List.filter_cons_of_pos (by simp [hc.1]), List.filter_cons_of_pos (by simp [hc.2.1]),
      List.filter_cons_of_pos (by simp [hc.2.2]), hcs]

/-- C9: for every bare identifier containing none of the characters `!`, `[`,
`]`, and every type expression formed by wrapping it in any combination of
those marker characters (a prefix and a suffix of markers), the stripping
done by `get_type_id` recovers exactly the original bare identifier. -/
theorem claim_C9_round_trip (p i q : List Char)
    (hp : ∀ c ∈ p, c = '!' ∨ c = '[' ∨ c = ']')
    (hq : ∀ c ∈ q, c = '!' ∨ c = '[' ∨ c = ']')
    (hi : ∀ c ∈ i, ¬ (c = '!' ∨ c = '[' ∨ c = ']')) :
    getTypeId (String.mk (p ++ i ++ q)) = String.mk i := by
  rw [getTypeId_data]
  congr 1
  simp only [List.filter_append]
  rw [filter_markers_nil p hp, filter_markers_id i hi, filter_markers_nil q hq]
  simp

/-- Witness for C9 at the concrete type expression `[Foo!]!` with bare
identifier `Foo`. -/
theorem claim_C9_witness :
    getTypeId (String.mk (['['] ++ ['F', 'o', 'o'] ++ ['!', ']', '!'])) =
      String.mk ['F', 'o', 'o'] :=
  claim_C9_round_trip ['['] ['F', 'o', 'o'] ['!', ']', '!']
    (by decide) (by decide) (by decide)

/-- C8: in state `none`, dispatching a non-empty token other than the four
declaration keywords at a space or newline delimiter raises the fatal
`Unexpected token` error, and the whole run aborts with that error (so the
registry of the aborted run is never extended). -/
theorem claim_C8_unexpected_token (s : ParserState) (c : Char)
    (hstate : s.state = "none") (hcm : s.comment = false) (hlc : s.long_comment = false)
    (hbr : s.bracket_level ≤ 0) (hc : c = ' ' ∨ c = '\n')
    (htok : s.current_token ≠ "") (hkw : keywords.contains s.current_token = false) :
    readCharacter s c = .error ("Unexpected token: " ++ s.current_token) ∧
      ∀ cs, run s (c :: cs) = .error ("Unexpected token: " ++ s.current_token) := by
  have hkw2 : ¬ s.current_token ∈ keywords := by simpa using hkw
  have key : readCharacter s c = .error ("Unexpected token: " ++ s.current_token) := by
    rcases hc with rfl | rfl
    · simp [readCharacter, applyCommentFlags, dispatch, Except.map, hcm, hlc, hstate, htok, hkw2,
        delims, not_lt.mpr hbr]
    · simp [readCharacter, applyCommentFlags, dispatch, Except.map, hlc, hstate, htok, hkw2,
        delims, not_lt.mpr hbr]
  refine ⟨key, fun cs => ?_⟩
  simp [run, key]

/-! ### Step characterization -/

/-- Equality of two parser states on every component the registry invariants
depend on (everything except the token buffer, the pending-comment flags and
the bracket depth). -/
def coreEq (s t : ParserState) : Prop :=
  t.schemas = s.schemas ∧ t.scalars = s.scalars ∧ t.current_schema = s.current_schema ∧
  t.state = s.state ∧ t.current_type = s.current_type ∧ t.field_state = s.field_state ∧
  t.current_field = s.current_field

/-- Shape of the state change performed by the `none`-state keyword step. -/
def shapeKeyword (s t : ParserState) : Prop :=
  s.state = "none" ∧ s.current_token ∈ keywords ∧ t.schemas = s.schemas ∧
  t.scalars = s.scalars ∧ t.state = "name" ∧ t.current_type = s.current_token ∧
  t.field_state = s.field_state ∧ t.current_field = s.current_field ∧
  t.current_schema = some { name := "", schema_type := s.current_token, fields := [] }

/-- Shape of the scalar-finalization step (end of the name of a `scalar`). -/
def shapeScalarFinal (s t : ParserState) (c : Char) : Prop :=
  s.state = "name" ∧ s.current_type = "scalar" ∧ (c = ' ' ∨ c = '\n' ∨ c = '{') ∧
  ∃ g, s.current_schema = some g ∧
    t.schemas = dictSet s.schemas s.current_token { g with name := s.current_token } ∧
    t.scalars = setAdd s.scalars s.current_token ∧ t.state = "none" ∧
    t.current_type = "" ∧ t.field_state = s.field_state ∧
    t.current_field = s.current_field ∧
    t.current_schema = some { g with name := s.current_token }

/-- Shape of the transition from the `name` state into the `fields` state. -/
def shapeEnterFields (s t : ParserState) : Prop :=
  s.state = "name" ∧ ¬ s.current_type = "scalar" ∧
  ∃ g, s.current_schema = some g ∧ t.schemas = s.schemas ∧ t.scalars = s.scalars ∧
    t.state = "fields" ∧ t.current_type = s.current_type ∧ t.field_state = "field" ∧
    t.current_field = s.current_field ∧
    t.current_schema = some { g with name := s.current_token }

/-- Shape of the record-finalization step at a closing `}`. -/
def shapeCloseBrace (s t : ParserState) (c : Char) : Prop :=
  s.state = "fields" ∧ c = '}' ∧
  ∃ g, s.current_schema = some g ∧ t.schemas = dictSet s.schemas g.name g ∧
    t.scalars = s.scalars ∧ t.state = "none" ∧ t.current_type = "" ∧
    t.field_state = "field" ∧ t.current_field = s.current_field ∧
    t.current_schema = none

/-- Shape of recording one enum value. -/
def shapeEnumValue (s t : ParserState) : Prop :=
  s.state = "fields" ∧ s.field_state = "field" ∧ s.current_type = "enum" ∧
  ∃ g, s.current_schema = some g ∧ t.schemas = s.schemas ∧ t.scalars = s.scalars ∧
    t.state = s.state ∧ t.current_type = s.current_type ∧
    t.field_state = s.field_state ∧ t.current_field = s.current_field ∧
    t.current_schema = some (addField g s.current_token "")

/-- Shape of remembering a pending field name (moving to the `dtype` phase). -/
def shapeFieldName (s t : ParserState) : Prop :=
  s.state = "fields" ∧ s.field_state = "field" ∧ ¬ s.current_type = "enum" ∧
  t.schemas = s.schemas ∧ t.scalars = s.scalars ∧ t.state = s.state ∧
  t.current_type = s.current_type ∧ t.field_state = "dtype" ∧
  t.current_schema = s.current_schema

/-- Shape of recording a pending field together with its type expression. -/
def shapeFieldType (s t : ParserState) : Prop :=
  s.state = "fields" ∧ s.field_state = "dtype" ∧
  ∃ g, s.current_schema = some g ∧ t.schemas = s.schemas ∧ t.scalars = s.scalars ∧
    t.state = s.state ∧ t.current_type = s.current_type ∧ t.field_state = "field" ∧
    t.current_field = "" ∧
    t.current_schema = some (addField g s.current_field s.current_token)

/-- Every successful `dispatch` step is either a no-op on the core state or
one of the seven transition shapes of the state machine. -/
theorem dispatch_cases (s : ParserState) (c : Char) (t : ParserState)
    (h : dispatch s c = .ok t) :
    coreEq s t ∨ shapeKeyword s t ∨ shapeScalarFinal s t c ∨ shapeEnterFields s t ∨
      shapeCloseBrace s t c ∨ shapeEnumValue s t ∨ shapeFieldName s t ∨ shapeFieldType s t := by
  unfold dispatch at h
  by_cases h1 : s.state = "none"
  · rw [if_pos h1] at h
    by_cases h2 : c = ' ' ∨ c = '\n'
    · rw [if_pos h2] at h
      by_cases h3 : s.current_token = ""
      · rw [if_pos h3] at h
        cases h
        exact Or.inl ⟨rfl, rfl, rfl, rfl, rfl, rfl, rfl⟩
      · rw [if_neg h3] at h
        by_cases h4 : keywords.contains s.current_token = true
        · rw [if_pos h4] at h
          cases h
          exact Or.inr (Or.inl ⟨h1, by simpa using h4, rfl, rfl, rfl, rfl, rfl, rfl, rfl⟩)
        · rw [if_neg h4] at h
          cases h
    · rw [if_neg h2] at h
      cases h
  · rw [if_neg h1] at h
    by_cases h5 : s.state = "name"
    · rw [if_pos h5] at h
      by_cases h6 : c = ' ' ∨ c = '\n' ∨ c = '{'
      · rw [if_pos h6] at h
        rcases hg : s.current_schema with _ | g <;> simp only [hg] at h
        · cases h
        · by_cases h7 : s.current_type = "scalar"
          · rw [if_pos h7] at h
            cases h
            exact Or.inr (Or.inr (Or.inl
              ⟨h5, h7, h6, g, hg, rfl, rfl, rfl, rfl, rfl, rfl, rfl⟩))
          · rw [if_neg h7] at h
            cases h
            exact Or.inr (Or.inr (Or.inr (Or.inl
              ⟨h5, h7, g, hg, rfl, rfl, rfl, rfl, rfl, rfl, rfl⟩)))
      · rw [if_neg h6] at h
        cases h
    · rw [if_neg h5] at h
      by_cases h8 : s.state = "fields"
      · rw [if_pos h8] at h
        by_cases h9 : c = ':' ∨ c = '{' ∨ c = '}' ∨ c = '\n' ∨ c = ' ' ∨ c = '='
        · rw [if_pos h9] at h
          by_cases h10 : s.current_type = ""
          · rw [if_pos h10] at h
            cases h
          · rw [if_neg h10] at h
            by_cases h11 : c = '}'
            · rw [if_pos h11] at h
              rcases hg : s.current_schema with _ | g <;> simp only [hg] at h
              · cases h
              · cases h
                exact Or.inr (Or.inr (Or.inr (Or.inr (Or.inl
                  ⟨h8, h11, g, hg, rfl, rfl, rfl, rfl, rfl, rfl, rfl⟩))))
            · rw [if_neg h11] at h
              by_cases h12 : c = '='
              · rw [if_pos h12] at h
                cases h
                exact Or.inl ⟨rfl, rfl, rfl, rfl, rfl, rfl, rfl⟩
              · rw [if_neg h12] at h
                by_cases h13 : s.current_token = ""
                · rw [if_pos h13] at h
                  cases h
                  exact Or.inl ⟨rfl, rfl, rfl, rfl, rfl, rfl, rfl⟩
                · rw [if_neg h13] at h
                  by_cases h14 : c = '{'
                  · rw [if_pos h14] at h
                    cases h
                  · rw [if_neg h14] at h
                    by_cases h15 : s.field_state = "field"
                    · rw [if_pos h15] at h
                      by_cases h16 : s.current_type = "enum"
                      · rw [if_pos h16] at h
                        by_cases h17 : c = ' ' ∨ c = '\n'
                        · rw [if_pos h17] at h
                          rcases hg : s.current_schema with _ | g <;> simp only [hg] at h
                          · cases h
                          · cases h
                            exact Or.inr (Or.inr (Or.inr (Or.inr (Or.inr (Or.inl
                              ⟨h8, h15, h16, g, hg, rfl, rfl, rfl, rfl, rfl, rfl, rfl⟩)))))
                        · rw [if_neg h17] at h
                          cases h
                      · rw [if_neg h16] at h
                        cases h
                        exact Or.inr (Or.inr (Or.inr (Or.inr (Or.inr (Or.inr (Or.inl
                          ⟨h8, h15, h16, rfl, rfl, rfl, rfl, rfl, rfl⟩))))))
                    · rw [if_neg h15] at h
                      by_cases h18 : s.field_state = "dtype" ∧ (c = '\n' ∨ c = ' ')
                      · rw [if_pos h18] at h
                        by_cases h19 : s.current_field = ""
                        · rw [if_pos h19] at h
                          cases h
                        · rw [if_neg h19] at h
                          rcases hg : s.current_schema with _ | g <;> simp only [hg] at h
                          · cases h
                          · cases h
                            exact Or.inr (Or.inr (Or.inr (Or.inr (Or.inr (Or.inr (Or.inr
                              ⟨h8, h18.1, g, hg, rfl, rfl, rfl, rfl, rfl, rfl, rfl⟩))))))
                      · rw [if_neg h18] at h
                        cases h
                        exact Or.inl ⟨rfl, rfl, rfl, rfl, rfl, rfl, rfl⟩
        · rw [if_neg h9] at h
          cases h
      · rw [if_neg h8] at h
        cases h
        exact Or.inl ⟨rfl, rfl, rfl, rfl, rfl, rfl, rfl⟩

/-- The comment-flag handling only touches the `comment` flag. -/
theorem acf_comment (s : ParserState) (c : Char) :
    ∃ b, applyCommentFlags s c = { s with comment := b } := by
  unfold applyCommentFlags
  split_ifs
  · exact ⟨false, rfl⟩
  · exact ⟨true, rfl⟩
  · exact ⟨s.comment, rfl⟩

/-- Token accumulation only touches the token buffer, the bracket depth and
the block-comment flag. -/
theorem accumulate_coreEq (s : ParserState) (c : Char) : coreEq s (accumulate s c) := by
  simp only [accumulate, coreEq]
  split_ifs <;> exact ⟨rfl, rfl, rfl, rfl, rfl, rfl, rfl⟩

/-- Every successful `read_character` step is either a no-op on the core state
or one of the seven transition shapes of the state machine. -/
theorem readCharacter_cases (s : ParserState) (c : Char) (t : ParserState)
    (h : readCharacter s c = .ok t) :
    coreEq s t ∨ shapeKeyword s t ∨ shapeScalarFinal s t c ∨ shapeEnterFields s t ∨
      shapeCloseBrace s t c ∨ shapeEnumValue s t ∨ shapeFieldName s t ∨ shapeFieldType s t := by
  obtain ⟨b, hb⟩ := acf_comment s c
  unfold readCharacter at h
  rw [hb] at h
  by_cases hB : b = true
  · subst hB
    rw [if_pos (show ({ s with comment := true } : ParserState).comment = true from rfl)] at h
    cases h
    exact Or.inl ⟨rfl, rfl, rfl, rfl, rfl, rfl, rfl⟩
  · have hB2 : b = false := by
      cases b
      · rfl
      · exact absurd rfl hB
    subst hB2
    rw [if_neg (show ¬ ({ s with comment := false } : ParserState).comment = true from by
      simp)] at h
    by_cases hacc :
        ({ s with comment := false } : ParserState).bracket_level > 0 ∨ ¬ delims.contains c
    · rw [if_pos hacc] at h
      cases h
      exact Or.inl (accumulate_coreEq { s with comment := false } c)
    · rw [if_neg hacc] at h
      by_cases hlc : ({ s with comment := false } : ParserState).long_comment = true
      · rw [if_pos hlc] at h
        cases h
        exact Or.inl ⟨rfl, rfl, rfl, rfl, rfl, rfl, rfl⟩
      · rw [if_neg hlc] at h
        rcases hd : dispatch { s with comment := false } c with e | u <;> rw [hd] at h
        · simp [Except.map] at h
        · simp only [Except.map] at h
          cases h
          exact dispatch_cases { s with comment := false } c u hd

/-- C6: a successful `read_character` step changes the registry only by
inserting the finalized current record at its closing delimiter: either the
registry is untouched, or the machine was in state `name` finalizing a
`scalar` at a delimiter ending the name, or it was in state `fields`
consuming `}` — and in both insertion cases the inserted record is the
machine's current record and the machine returns to state `none` (so a
partially parsed record is never inserted). -/
theorem claim_C6_registry_insertion (s : ParserState) (c : Char) (t : ParserState)
    (h : readCharacter s c = .ok t) :
    t.schemas = s.schemas
    ∨ (s.state = "name" ∧ s.current_type = "scalar" ∧ (c = ' ' ∨ c = '\n' ∨ c = '{') ∧
       ∃ g, s.current_schema = some g ∧
         t.schemas = dictSet s.schemas s.current_token { g with name := s.current_token } ∧
         t.state = "none")
    ∨ (s.state = "fields" ∧ c = '}' ∧
       ∃ g, s.current_schema = some g ∧ t.schemas = dictSet s.schemas g.name g ∧
         t.state = "none" ∧ t.current_schema = none) := by
  rcases readCharacter_cases s c t h with hc | hc | hc | hc | hc | hc | hc | hc
  · exact Or.inl hc.1
  · exact Or.inl hc.2.2.1
  · obtain ⟨h1, h2, h3, g, hg, hsch, _, hst, _⟩ := hc
    exact Or.inr (Or.inl ⟨h1, h2, h3, g, hg, hsch, hst⟩)
  · obtain ⟨_, _, g, _, hsch, _⟩ := hc
    exact Or.inl hsch
  · obtain ⟨h1, h2, g, hg, hsch, _, hst, _, _, _, hcs⟩ := hc
    exact Or.inr (Or.inr ⟨h1, h2, g, hg, hsch, hst, hcs⟩)
  · obtain ⟨_, _, _, g, _, hsch, _⟩ := hc
    exact Or.inl hsch
  · exact Or.inl hc.2.2.2.1
  · obtain ⟨_, _, g, _, hsch, _⟩ := hc
    exact Or.inl hsch

/-- The record used by the C6 witness. -/
def c6g : GraphQLSchema := { name := "Foo", schema_type := "type", fields := [] }

/-- Witness source state for C6: mid-parse inside the body of `type Foo`. -/
def c6s : ParserState :=
  { initState with state := "fields", current_type := "type", current_schema := some c6g }

/-- Witness target state for C6: after consuming the closing brace. -/
def c6t : ParserState := { initState with schemas := [("Foo", c6g)] }

/-- Witness for C6 at the concrete closing-brace step from `c6s`. -/
theorem claim_C6_witness :
    c6t.schemas = c6s.schemas
    ∨ (c6s.state = "name" ∧ c6s.current_type = "scalar" ∧
       ('}' = ' ' ∨ '}' = '\n' ∨ '}' = '{') ∧
       ∃ g, c6s.current_schema = some g ∧
         c6t.schemas = dictSet c6s.schemas c6s.current_token
           { g with name := c6s.current_token } ∧
         c6t.state = "none")
    ∨ (c6s.state = "fields" ∧ '}' = '}' ∧
       ∃ g, c6s.current_schema = some g ∧ c6t.schemas = dictSet c6s.schemas g.name g ∧
         c6t.state = "none" ∧ c6t.current_schema = none) :=
  claim_C6_registry_insertion c6s '}' c6t (by rfl)

/-! ### Registry invariants -/

/-- The record invariant of the spec: scalar records have no fields, enum
records map every value to the empty string. -/
def recordOk (g : GraphQLSchema) : Prop :=
  (g.schema_type = "scalar" → g.fields = []) ∧
  (g.schema_type = "enum" → ∀ p ∈ g.fields, p.2 = "")

/-- The inductive invariant of the parser state: every registry record and the
current record satisfy `recordOk`, every scalar record's name is in the scalar
set, the `name`/`fields` states carry a current record of the matching
declaration kind, enum bodies stay in the `field` sub-state, and registry keys
are duplicate-free. -/
def ParserInv (s : ParserState) : Prop :=
  (∀ n g, dictGet s.schemas n = some g →
    recordOk g ∧ (g.schema_type = "scalar" → n ∈ s.scalars)) ∧
  (∀ g, s.current_schema = some g → recordOk g) ∧
  (s.state = "name" → ∃ g, s.current_schema = some g ∧
    g.schema_type = s.current_type ∧ s.current_type ∈ keywords) ∧
  (s.state = "fields" → ∃ g, s.current_schema = some g ∧
    g.schema_type = s.current_type ∧
    (s.current_type = "type" ∨ s.current_type = "input" ∨ s.current_type = "enum")) ∧
  (s.state = "fields" → s.current_type = "enum" → s.field_state = "field") ∧
  (s.schemas.map Prod.fst).Nodup

theorem inv_initState : ParserInv initState := by
  refine ⟨?_, ?_, ?_, ?_, ?_, ?_⟩
  · intro n g h
    simp [initState, dictGet] at h
  · intro g h
    simp [initState] at h
  · intro h
    exact absurd h (by decide)
  · intro h
    exact absurd h (by decide)
  · intro h
    exact absurd h (by decide)
  · simp [initState]

theorem inv_of_coreEq (s t : ParserState) (hc : coreEq s t) (h : ParserInv s) : ParserInv t := by
  obtain ⟨e1, e2, e3, e4, e5, e6, e7⟩ := hc
  obtain ⟨i1, i2, i3, i4, i5, i6⟩ := h
  refine ⟨?_, ?_, ?_, ?_, ?_, ?_⟩
  · intro n g hg
    rw [e1] at hg
    rw [e2]
    exact i1 n g hg
  · intro g hg
    rw [e3] at hg
    exact i2 g hg
  · intro hst
    rw [e4] at hst
    obtain ⟨g, hg, hty, hkw⟩ := i3 hst
    exact ⟨g, by rw [e3]; exact hg, by rw [e5]; exact hty, by rw [e5]; exact hkw⟩
  · intro hst
    rw [e4] at hst
    obtain ⟨g, hg, hty, hmem⟩ := i4 hst
    exact ⟨g, by rw [e3]; exact hg, by rw [e5]; exact hty, by rw [e5]; exact hmem⟩
  · intro hst hty
    rw [e4] at hst
    rw [e5] at hty
    rw [e6]
    exact i5 hst hty
  · rw [e1]
    exact i6

theorem inv_step (s : ParserState) (c : Char) (t : ParserState)
    (hInv : ParserInv s) (h : readCharacter s c = .ok t) : ParserInv t := by
  obtain ⟨i1, i2, i3, i4, i5, i6⟩ := hInv
  rcases readCharacter_cases s c t h with hc | hc | hc | hc | hc | hc | hc | hc
  · exact inv_of_coreEq s t hc ⟨i1, i2, i3, i4, i5, i6⟩
  · -- keyword step
    obtain ⟨hs, hkw, e1, e2, est, ect, efs, ecf, ecs⟩ := hc
    refine ⟨?_, ?_, ?_, ?_, ?_, ?_⟩
    · intro n g hg
      rw [e1] at hg
      rw [e2]
      exact i1 n g hg
    · intro g hg
      rw [ecs] at hg
      cases hg
      exact ⟨fun _ => rfl, fun _ p hp => absurd hp (List.not_mem_nil p)⟩
    · intro _
      refine ⟨{ name := "", schema_type := s.current_token, fields := [] }, ecs, ?_, ?_⟩
      · rw [ect]
      · rw [ect]; exact hkw
    · intro hst
      exact absurd (est.symm.trans hst) (by decide)
    · intro hst _
      exact absurd (est.symm.trans hst) (by decide)
    · rw [e1]
      exact i6
  · -- scalar finalization
    obtain ⟨hs, hty, _, g, hg, esch, esca, est, ect, efs, ecf, ecs⟩ := hc
    obtain ⟨g2, hg2, hty2, _⟩ := i3 hs
    rw [hg] at hg2
    cases hg2
    have hgsc : g.schema_type = "scalar" := by rw [hty2, hty]
    have hrok : recordOk { g with name := s.current_token } := by
      have := i2 g hg
      exact ⟨fun h2 => this.1 h2, fun h2 p hp => this.2 h2 p hp⟩
    refine ⟨?_, ?_, ?_, ?_, ?_, ?_⟩
    · intro n g0 hg0
      rw [esch, dictGet_dictSet] at hg0
      by_cases hn : n = s.current_token
      · rw [if_pos hn] at hg0
        cases hg0
        refine ⟨hrok, fun _ => ?_⟩
        rw [esca, hn]
        exact self_mem_setAdd s.scalars s.current_token
      · rw [if_neg hn] at hg0
        obtain ⟨hrok0, hsc0⟩ := i1 n g0 hg0
        refine ⟨hrok0, fun h2 => ?_⟩
        rw [esca]
        exact mem_setAdd_of_mem s.scalars n s.current_token (hsc0 h2)
    · intro g0 hg0
      rw [ecs] at hg0
      cases hg0
      exact hrok
    · intro hst
      exact absurd (est.symm.trans hst) (by decide)
    · intro hst
      exact absurd (est.symm.trans hst) (by decide)
    · intro hst _
      exact absurd (est.symm.trans hst) (by decide)
    · rw [esch]
      exact nodup_keys_dictSet s.schemas s.current_token _ i6
  · -- entering the fields state
    obtain ⟨hs, hnty, g, hg, e1, e2, est, ect, efs, ecf, ecs⟩ := hc
    obtain ⟨g2, hg2, hty2, hkw2⟩ := i3 hs
    rw [hg] at hg2
    cases hg2
    have hmem : s.current_type = "type" ∨ s.current_type = "input" ∨
        s.current_type = "enum" := by
      rcases (by simpa [keywords] using hkw2 :
        s.current_type = "type" ∨ s.current_type = "input" ∨ s.current_type = "enum" ∨
          s.current_type = "scalar") with h2 | h2 | h2 | h2
      · exact Or.inl h2
      · exact Or.inr (Or.inl h2)
      · exact Or.inr (Or.inr h2)
      · exact absurd h2 hnty
    refine ⟨?_, ?_, ?_, ?_, ?_, ?_⟩
    · intro n g0 hg0
      rw [e1] at hg0
      rw [e2]
      exact i1 n g0 hg0
    · intro g0 hg0
      rw [ecs] at hg0
      cases hg0
      have := i2 g hg
      exact ⟨fun h2 => this.1 h2, fun h2 p hp => this.2 h2 p hp⟩
    · intro hst
      exact absurd (est.symm.trans hst) (by decide)
    · intro _
      refine ⟨{ g with name := s.current_token }, ecs, ?_, ?_⟩
      · rw [ect]; exact hty2
      · rw [ect]; exact hmem
    · intro _ _
      exact efs
    · rw [e1]
      exact i6
  · -- closing brace
    obtain ⟨hs, _, g, hg, esch, esca, est, ect, efs, ecf, ecs⟩ := hc
    obtain ⟨g2, hg2, hty2, hmem⟩ := i4 hs
    rw [hg] at hg2
    cases hg2
    have hgns : ¬ g.schema_type = "scalar" := by
      rw [hty2]
      rcases hmem with h2 | h2 | h2 <;> rw [h2] <;> decide
    refine ⟨?_, ?_, ?_, ?_, ?_, ?_⟩
    · intro n g0 hg0
      rw [esch, dictGet_dictSet] at hg0
      by_cases hn : n = g.name
      · rw [if_pos hn] at hg0
        cases hg0
        exact ⟨i2 g hg, fun h2 => absurd h2 hgns⟩
      · rw [if_neg hn] at hg0
        obtain ⟨hrok0, hsc0⟩ := i1 n g0 hg0
        refine ⟨hrok0, fun h2 => ?_⟩
        rw [esca]
        exact hsc0 h2
    · intro g0 hg0
      rw [ecs] at hg0
      cases hg0
    · intro hst
      exact absurd (est.symm.trans hst) (by decide)
    · intro hst
      exact absurd (est.symm.trans hst) (by decide)
    · intro hst _
      exact absurd (est.symm.trans hst) (by decide)
    · rw [esch]
      exact nodup_keys_dictSet s.schemas g.name g i6
  · -- enum value
    obtain ⟨hs, hfs, hty, g, hg, e1, e2, est, ect, efs, ecf, ecs⟩ := hc
    obtain ⟨g2, hg2, hty2, hmem⟩ := i4 hs
    rw [hg] at hg2
    cases hg2
    refine ⟨?_, ?_, ?_, ?_, ?_, ?_⟩
    · intro n g0 hg0
      rw [e1] at hg0
      rw [e2]
      exact i1 n g0 hg0
    · intro g0 hg0
      rw [ecs] at hg0
      cases hg0
      constructor
      · intro h2
        have : s.current_type = "scalar" := by
          rw [← hty2]
          exact h2
        rw [hty] at this
        exact absurd this (by decide)
      · intro _ p hp
        rcases mem_dictSet g.fields s.current_token "" p hp with h2 | h2
        · rw [h2]
        · have hge : g.schema_type = "enum" := by rw [hty2, hty]
          exact (i2 g hg).2 hge p h2
    · intro hst
      rw [est] at hst
      exact absurd (hs.symm.trans hst) (by decide)
    · intro _
      refine ⟨addField g s.current_token "", ecs, ?_, ?_⟩
      · rw [ect]; exact hty2
      · rw [ect]; exact hmem
    · intro _ _
      rw [efs]
      exact hfs
    · rw [e1]
      exact i6
  · -- pending field name
    obtain ⟨hs, hfs, hnty, e1, e2, est, ect, efs, ecs⟩ := hc
    obtain ⟨g2, hg2, hty2, hmem⟩ := i4 hs
    refine ⟨?_, ?_, ?_, ?_, ?_, ?_⟩
    · intro n g0 hg0
      rw [e1] at hg0
      rw [e2]
      exact i1 n g0 hg0
    · intro g0 hg0
      rw [ecs] at hg0
      exact i2 g0 hg0
    · intro hst
      rw [est] at hst
      exact absurd (hs.symm.trans hst) (by decide)
    · intro _
      refine ⟨g2, ?_, ?_, ?_⟩
      · rw [ecs]; exact hg2
      · rw [ect]; exact hty2
      · rw [ect]; exact hmem
    · intro _ hty
      rw [ect] at hty
      exact absurd hty hnty
    · rw [e1]
      exact i6
  · -- pending field plus type expression
    obtain ⟨hs, hfs, g, hg, e1, e2, est, ect, efs, ecf, ecs⟩ := hc
    obtain ⟨g2, hg2, hty2, hmem⟩ := i4 hs
    rw [hg] at hg2
    cases hg2
    refine ⟨?_, ?_, ?_, ?_, ?_, ?_⟩
    · intro n g0 hg0
      rw [e1] at hg0
      rw [e2]
      exact i1 n g0 hg0
    · intro g0 hg0
      rw [ecs] at hg0
      cases hg0
      constructor
      · intro h2
        have h3 : s.current_type = "scalar" := by rw [← hty2]; exact h2
        rcases hmem with h4 | h4 | h4 <;> rw [h4] at h3 <;> exact absurd h3 (by decide)
      · intro h2
        have h3 : s.current_type = "enum" := by rw [← hty2]; exact h2
        have h4 := i5 hs h3
        rw [h4] at hfs
        exact absurd hfs (by decide)
    · intro hst
      rw [est] at hst
      exact absurd (hs.symm.trans hst) (by decide)
    · intro _
      refine ⟨addField g s.current_field s.current_token, ecs, ?_, ?_⟩
      · rw [ect]; exact hty2
      · rw [ect]; exact hmem
    · intro _ _
      exact efs
    · rw [e1]
      exact i6

theorem inv_run (cs : List Char) : ∀ (s t : ParserState),
    ParserInv s → run s cs = .ok t → ParserInv t := by
  induction cs with
  | nil =>
    intro s t hInv h
    cases h
    exact hInv
  | cons c cs ih =>
    intro s t hInv h
    unfold run at h
    rcases hrc : readCharacter s c with e | s2 <;> rw [hrc] at h
    · cases h
    · exact ih s2 t (inv_step s c s2 hInv hrc) h

/-- C7: every record in the registry after any successful parse run satisfies
the record invariant: scalar records have an empty fields mapping, and enum
records associate the empty string with every value. -/
theorem claim_C7_record_invariant (cs : List Char) (t : ParserState)
    (h : run initState cs = .ok t) (n : String) (g : GraphQLSchema)
    (hg : dictGet t.schemas n = some g) :
    (g.schema_type = "scalar" → g.fields = []) ∧
    (g.schema_type = "enum" → ∀ p ∈ g.fields, p.2 = "") :=
  ((inv_run cs initState t inv_initState h).1 n g hg).1

/-- The record produced by parsing `scalar Foo`. -/
def fooScalarRec : GraphQLSchema := { name := "Foo", schema_type := "scalar", fields := [] }

/-- The parser state after feeding the characters of `scalar Foo` and a
newline. -/
def fooScalarState : ParserState :=
  { schemas := [("Foo", fooScalarRec)]
    scalars := ["Int", "Float", "String", "Boolean", "ID", "Foo"]
    current_schema := some fooScalarRec
    state := "none"
    current_type := ""
    field_state := "field"
    current_token := ""
    current_field := ""
    comment := false
    long_comment := false
    bracket_level := 0 }

/-- Witness for C7 at the parse of `scalar Foo` and its `Foo` record. -/
theorem claim_C7_witness :
    (fooScalarRec.schema_type = "scalar" → fooScalarRec.fields = []) ∧
    (fooScalarRec.schema_type = "enum" → ∀ p ∈ fooScalarRec.fields, p.2 = "") :=
  claim_C7_record_invariant ("scalar Foo\n".data) fooScalarState (by rfl)
    "Foo" fooScalarRec (by rfl)

/-- C1 (amended): a declared `scalar Foo` is recorded in the accumulated
scalar set (every scalar record's name is in the scalar set after any parse
run), and a type expression whose bare identifier is in the scalar set used
for rendering is rendered verbatim in fixed-width styling without a
cross-link.  The remaining (Custom Data Types) records are rendered with the
accumulated scalar set, but `Query` and `Mutation` are rendered with only the
built-in scalars, so their `Foo`-typed fields do receive cross-links — see
the counterexample. -/
theorem claim_C1_scalar_no_link_amended :
    (∀ (cs : List Char) (t : ParserState), run initState cs = .ok t →
      ∀ (n : String) (g : GraphQLSchema), dictGet t.schemas n = some g →
        g.schema_type = "scalar" → n ∈ t.scalars) ∧
    (∀ (dt : String) (sc : List String), sc.contains (getTypeId dt) = true →
      dtypeMd dt sc = .ok ("`" ++ dt ++ "`")) := by
  constructor
  · intro cs t h n g hg hsc
    exact ((inv_run cs initState t inv_initState h).1 n g hg).2 hsc
  · intro dt sc hsc
    unfold dtypeMd
    rw [if_pos hsc]

/-- Witness for C1 (amended): `Foo` is in the scalar set after parsing
`scalar Foo`, and a `Foo`-typed field is rendered as plain fixed-width code
when `Foo` is in the scalar set used for rendering. -/
theorem claim_C1_witness :
    "Foo" ∈ fooScalarState.scalars ∧ dtypeMd "Foo" ["Foo"] = .ok ("`" ++ "Foo" ++ "`") :=
  ⟨claim_C1_scalar_no_link_amended.1 ("scalar Foo\n".data) fooScalarState (by rfl)
      "Foo" fooScalarRec (by rfl) (by rfl),
   claim_C1_scalar_no_link_amended.2 "Foo" ["Foo"] (by rfl)⟩

/-- Substring test on character lists (Python `needle in hay`). -/
def containsSub (needle : List Char) : List Char → Bool
  | [] => needle.isEmpty
  | c :: cs => needle.isPrefixOf (c :: cs) || containsSub needle cs

/-- The document refuting C1 as stated: `Foo` is a declared scalar, yet the
`Query` record's field `a : Foo` is rendered with a cross-link because
`Query` is rendered against the built-in scalar set only. -/
def c1doc : String :=
  "scalar Foo\ntype Query \x7b\na: Foo\n\x7d\ntype Mutation \x7b\n\x7d\n"

set_option maxRecDepth 8000 in
/-- Counterexample to C1 as stated: in the output for `c1doc`, the anchor
link `(#foo)` occurs (the `Foo`-typed field of `Query` is cross-linked) and
the claimed verbatim fixed-width rendering of that field does not occur. -/
theorem claim_C1_counterexample :
    (convertSchema c1doc).map
        (fun md => (containsSub "(#foo)".data md.data, containsSub "**`a`:** `Foo`".data md.data))
      = .ok (true, false) := by
  rfl

/-- A document declaring `Foo` twice (as a `type` and later as an `enum`). -/
def dupDoc : String :=
  "type Foo \x7b\na: Int\n\x7d\nenum Foo \x7b\nA\n\x7d\ntype Query \x7b\n\x7d\n"

/-- C10: dict assignment overwrites the value stored under an existing key
(so the later declaration wins), registry keys stay duplicate-free over every
parse run, and on the concrete duplicate-declaration document `dupDoc` the
parse succeeds and leaves exactly one `Foo` record — the later (enum) one. -/
theorem claim_C10_duplicate_overwrite :
    (∀ (m : List (String × GraphQLSchema)) (n : String) (g : GraphQLSchema),
      dictGet (dictSet m n g) n = some g) ∧
    (∀ (cs : List Char) (t : ParserState), run initState cs = .ok t →
      (t.schemas.map Prod.fst).Nodup) ∧
    (parseDocument dupDoc).map
        (fun t => (dictGet t.schemas "Foo", t.schemas.countP (fun p => p.1 == "Foo")))
      = .ok (some { name := "Foo", schema_type := "enum", fields := [("A", "")] }, 1) := by
  refine ⟨?_, ?_, ?_⟩
  · intro m n g
    rw [dictGet_dictSet]
    simp
  · intro cs t h
    exact (inv_run cs initState t inv_initState h).2.2.2.2.2
  · rfl

/-- Witness for C10: the key-uniqueness conjunct applied to the parse of
`scalar Foo`. -/
theorem claim_C10_witness : (fooScalarState.schemas.map Prod.fst).Nodup :=
  claim_C10_duplicate_overwrite.2.1 ("scalar Foo\n".data) fooScalarState (by rfl)

/-- A document with a `Query` record and no `Mutation` record. -/
def queryOnlyDoc : String := "type Query \x7b\na: Int\n\x7d\n"

/-- C4 evaluation: parsing `queryOnlyDoc` yields a registry that does contain
`Query`, yet document assembly fails with the `Mutation` lookup error —
because `int("Mutation" in self.schemas) * [self.schemas.pop("Mutation")
.to_markdown()]` evaluates the bracketed list (and hence the pop) eagerly
even when the multiplier is 0. -/
theorem claim_C4_code_bug_eval :
    (parseDocument queryOnlyDoc).map
        (fun t => ((dictGet t.schemas "Query").isSome,
          (parserToMarkdown t).map (fun p => p.1)))
      = .ok (true, .error "KeyError: Mutation") := by
  rfl

/-- A document declaring `Query`, `Mutation` and a custom enum `Color`. -/
def c5doc : String :=
  "type Query \x7b\n\x7d\ntype Mutation \x7b\n\x7d\nenum Color \x7b\nRED\nGREEN\n\x7d\n"

/-- The rendered `Query` section of `c5doc`. -/
def c5QueryMd : String :=
  "## Query\n\nDatatype class: *Type*\n\n| Field | Description |\n| --- | --- |\n"

/-- The rendered `Mutation` section of `c5doc`. -/
def c5MutationMd : String :=
  "## Mutation\n\nDatatype class: *Type*\n\n| Field | Description |\n| --- | --- |\n"

/-- The rendered `Color` section of `c5doc`. -/
def c5ColorMd : String :=
  "## Color\n\nDatatype class: *Enum*\n\n| Values |\n| :-: |\n| **`RED`** |\n| **`GREEN`** |"

/-- C5 evaluation: with `Mutation` present the assembled document is exactly
the claimed section sequence joined by blank lines (entrypoint heading,
`Query`, `Mutation`, custom heading, remaining records in insertion order);
but with `Mutation` absent the assembly does not produce a Mutation-free
document — it aborts with the eager `Mutation` lookup error. -/
theorem claim_C5_code_bug_eval :
    convertSchema c5doc =
      .ok (pyJoin "\n\n"
        ["# Entrypoint Data Types", c5QueryMd, c5MutationMd, "# Custom Data Types", c5ColorMd]) ∧
    convertSchema queryOnlyDoc = .error "KeyError: Mutation" := by
  exact ⟨by rfl, by rfl⟩

/-- C2 (amended): the Document Assembler consumes the registry, so whenever
one invocation of `GraphQLSchemaParser.to_markdown` succeeds on a registry,
invoking it a second time on the resulting (mutated) registry always fails
with the `Query` lookup error, because the first invocation removed `Query`
(and `Mutation`) from the registry.  Rendering is a pure function of the
registry value, so a second invocation can only reproduce the first
invocation's bytes when run on an unconsumed copy of the registry. -/
theorem claim_C2_render_mutates_amended (s : ParserState) (md : String) (s2 : ParserState)
    (h : parserToMarkdown s = .ok (md, s2)) :
    parserToMarkdown s2 = .error "KeyError: Query" := by
  unfold parserToMarkdown at h
  rcases hq : dictPop s.schemas "Query" with _ | ⟨q, rest1⟩ <;> simp only [hq] at h
  · cases h
  rcases hqm : schemaToMarkdown q "##" SCALARS with e | qmd <;> simp only [hqm] at h
  · cases h
  rcases hm : dictPop rest1 "Mutation" with _ | ⟨m, rest2⟩ <;> simp only [hm] at h
  · cases h
  rcases hmm : schemaToMarkdown m "##" SCALARS with e | mmd <;> simp only [hmm] at h
  · cases h
  rcases hmds : (rest2.map (fun p => p.2)).mapM (fun g => schemaToMarkdown g "##" s.scalars)
    with e | mds <;> simp only [hmds] at h
  · cases h
  cases h
  have hrest1 : rest1 = dictRemove s.schemas "Query" := by
    unfold dictPop at hq
    rcases hget : dictGet s.schemas "Query" with _ | v <;> simp only [hget] at hq
    · cases hq
    cases hq
    rfl
  have hrest2 : rest2 = dictRemove rest1 "Mutation" := by
    unfold dictPop at hm
    rcases hget : dictGet rest1 "Mutation" with _ | v <;> simp only [hget] at hm
    · cases hm
    cases hm
    rfl
  have hnone : dictGet rest2 "Query" = none := by
    rw [hrest2]
    exact dictGet_dictRemove_none rest1 "Query" "Mutation"
      (hrest1 ▸ dictGet_dictRemove_self s.schemas "Query")
  unfold parserToMarkdown dictPop
  simp only [hnone]

/-- The fully populated registry used for C2: a `Query` and a `Mutation`
record. -/
def c2state : ParserState :=
  { initState with schemas :=
      [("Query", { name := "Query", schema_type := "type", fields := [] }),
       ("Mutation", { name := "Mutation", schema_type := "type", fields := [] })] }

/-- The Markdown produced by the first rendering of `c2state`. -/
def c2md : String :=
  "# Entrypoint Data Types\n\n## Query\n\nDatatype class: *Type*\n\n| Field | Description |" ++
  "\n| --- | --- |\n\n\n## Mutation\n\nDatatype class: *Type*\n\n| Field | Description |" ++
  "\n| --- | --- |\n\n\n# Custom Data Types"

/-- Counterexample to C2 as stated: on the fully populated registry
`c2state` (which contains `Query`), the first rendering succeeds but the
second rendering of the same (mutated) registry fails instead of succeeding
with identical bytes. -/
theorem claim_C2_counterexample :
    (parserToMarkdown c2state).map (fun p => parserToMarkdown p.2)
      = .ok (.error "KeyError: Query") := by
  rfl

/-- Witness for C2 (amended) at the concrete registry `c2state` (whose first
rendering yields `c2md` and leaves the empty-registry state `initState`). -/
theorem claim_C2_witness : parserToMarkdown initState = .error "KeyError: Query" :=
  claim_C2_render_mutates_amended c2state c2md initState (by rfl)

/-! ### Line comments contribute nothing to the parse -/

/-- A state whose `comment` flag is additionally forced by `b` (the machine
inside a `#`-initiated span has `comment = true`; outside one its flag is
whatever `=`-skipping left there). -/
def withC (t : ParserState) (b : Bool) : ParserState := { t with comment := t.comment || b }

theorem withC_false (t : ParserState) : withC t false = t := by
  unfold withC
  rw [Bool.or_false]

theorem withC_comment_true (t : ParserState) (b : Bool) :
    { withC t b with comment := true } = withC t true := by
  unfold withC
  rw [Bool.or_true]

/-- Textual removal of the line-comment spans of a character stream: a `#`
starts a span, a newline ends it (the newline itself is kept), and every
character inside a span is dropped.  The flag tracks being inside a span. -/
def stripLC : Bool → List Char → List Char
  | _, [] => []
  | b, c :: cs =>
    if c = '\n' then '\n' :: stripLC false cs
    else if c = '#' then stripLC true cs
    else if b then stripLC true cs else c :: stripLC false cs

/-- Relation between the outcomes of the original and the comment-stripped
run: both fail with the same error, or both succeed with states equal up to
the `comment` flag. -/
def relE : Except String ParserState → Except String ParserState → Prop
  | .ok u, .ok v => ∃ b, u = withC v b
  | .error e, .error f => e = f
  | _, _ => False

theorem readCharacter_newline (t : ParserState) (b : Bool) :
    readCharacter (withC t b) '\n' = readCharacter t '\n' := rfl

theorem readCharacter_hash (s : ParserState) :
    readCharacter s '#' = .ok { s with comment := true } := rfl

theorem readCharacter_in_comment (s : ParserState) (c : Char) (h1 : ¬ c = '\n')
    (h2 : ¬ c = '#') (h3 : s.comment = true) : readCharacter s c = .ok s := by
  unfold readCharacter applyCommentFlags
  rw [if_neg h1, if_neg h2, if_pos h3]

/-- Simulation: running the machine on a character stream is equivalent (up
to the `comment` flag) to running it on the stream with the line-comment
spans textually removed. -/
theorem run_stripLC (cs : List Char) : ∀ (b : Bool) (t : ParserState),
    relE (run (withC t b) cs) (run t (stripLC b cs)) := by
  induction cs with
  | nil =>
    intro b t
    exact ⟨b, rfl⟩
  | cons c cs ih =>
    intro b t
    by_cases hc1 : c = '\n'
    · subst hc1
      rw [show stripLC b ('\n' :: cs) = '\n' :: stripLC false cs from by
        simp [stripLC]]
      unfold run
      rw [readCharacter_newline t b]
      rcases hrc : readCharacter t '\n' with e | t2 <;> simp only [hrc]
      · exact rfl
      · have h := ih false t2
        rw [withC_false] at h
        exact h
    · by_cases hc2 : c = '#'
      · subst hc2
        rw [show stripLC b ('#' :: cs) = stripLC true cs from by
          simp [stripLC]]
        simp only [run, readCharacter_hash, withC_comment_true]
        exact ih true t
      · by_cases hb : b = true
        · subst hb
          rw [show stripLC true (c :: cs) = stripLC true cs from by
            simp [stripLC, hc1, hc2]]
          have hcm : (withC t true).comment = true := by
            unfold withC
            rw [Bool.or_true]
          simp only [run, readCharacter_in_comment (withC t true) c hc1 hc2 hcm]
          exact ih true t
        · have hb2 : b = false := by
            cases b
            · rfl
            · exact absurd rfl hb
          subst hb2
          rw [withC_false]
          rw [show stripLC false (c :: cs) = c :: stripLC false cs from by
            simp [stripLC, hc1, hc2]]
          unfold run
          rcases hrc : readCharacter t c with e | t2 <;> simp only [hrc]
          · exact rfl
          · have h := ih false t2
            rw [withC_false] at h
            exact h

/-- C3 (amended, restricted to line comments): characters covered by a line
comment (`#` to end of line) contribute zero tokens to the state machine:
the registry and the scalar set after a successful parse equal those of the
same character stream with the line-comment spans removed.  For block
comments the claim fails — see the counterexample. -/
theorem claim_C3_line_comments_amended (cs : List Char) (s1 s2 : ParserState)
    (h1 : run initState cs = .ok s1) (h2 : run initState (stripLC false cs) = .ok s2) :
    s1.schemas = s2.schemas ∧ s1.scalars = s2.scalars := by
  have hrel := run_stripLC cs false initState
  rw [withC_false, h1, h2] at hrel
  obtain ⟨b, hb⟩ := hrel
  subst hb
  exact ⟨rfl, rfl⟩

/-- The registry state holding exactly an empty `Query` record. -/
def queryOnlyState : ParserState :=
  { initState with schemas := [("Query", { name := "Query", schema_type := "type", fields := [] })] }

/-- Witness for C3 (amended) at a document whose first line is a `#` comment
containing declaration-like tokens. -/
theorem claim_C3_witness :
    queryOnlyState.schemas = queryOnlyState.schemas ∧
      queryOnlyState.scalars = queryOnlyState.scalars :=
  claim_C3_line_comments_amended ("# junk tokens ???\ntype Query \x7b\n\x7d\n".data)
    queryOnlyState queryOnlyState (by rfl) (by rfl)

/-- Counterexample to C3 as stated: the block comment `"""a"""` (closing
sentinel not delimiter-separated) contributes to the parse.  The document
with the comment present parses to an EMPTY registry (block-comment mode is
never left), while the same document with the comment characters removed
parses to a registry containing `Query` — the two registries differ. -/
theorem claim_C3_counterexample :
    (run initState ("\"\"\"a\"\"\" type Query \x7b\n\x7d\n").data).map ParserState.schemas
      = .ok [] ∧
    (run initState (" type Query \x7b\n\x7d\n").data).map ParserState.schemas
      = .ok [("Query", { name := "Query", schema_type := "type", fields := [] })] ∧
    ([] : List (String × GraphQLSchema)) ≠
      [("Query", { name := "Query", schema_type := "type", fields := [] })] := by
  exact ⟨by rfl, by rfl, by simp⟩

/-- A `none`-state parser state holding the unrecognized token `foo`. -/
def c8s : ParserState := { initState with current_token := "foo" }

/-- Witness for C8 at the concrete state `c8s` and a space delimiter. -/
theorem claim_C8_witness :
    readCharacter c8s ' ' = .error ("Unexpected token: " ++ c8s.current_token) :=
  (claim_C8_unexpected_token c8s ' ' rfl rfl rfl (by decide) (Or.inl rfl)
    (by decide) (by rfl)).1
